import Mathlib

/-!
Verification of the security-cam repository's detection/capture engine
against its specification.

The web front-end (`web/script.js`) is embedded directly from the source.
The Python core (`api/security-api.py`) is not part of the available
sources; the components it implements (zone sequencer, calibration
engine, capture scheduler, motion detector, file naming) are modelled
from the specification, as marked on each definition.
-/

namespace SecurityCam

/-! ## Detection-mode flags (web/script.js)

`use_regions` selects plain-region mode, `zone_detection_enabled`
selects corner-zone mode.  The front-end change handlers and the
initialization code mutate the pair as embedded below. -/

/-- The two mode flags of the configuration record. -/
structure ModeFlags where
  use_regions : Bool
  zone_detection_enabled : Bool
deriving DecidableEq, Fintype

/-- Embeds the `useRegions` change handler (script.js:1241-1258): when the
checkbox is checked it sends `use_regions=true, zone_detection_enabled=false`;
when unchecked it switches to corner detection
(`use_regions=false, zone_detection_enabled=true`). -/
def useRegionsChange (checked : Bool) (_c : ModeFlags) : ModeFlags :=
  if checked then { use_regions := true, zone_detection_enabled := false }
  else { use_regions := false, zone_detection_enabled := true }

/-- Embeds the `zoneDetectionEnabled` change handler (script.js:1279-1296):
checked sends `zone_detection_enabled=true, use_regions=false`; unchecked
switches back to region detection. -/
def zoneEnabledChange (checked : Bool) (_c : ModeFlags) : ModeFlags :=
  if checked then { use_regions := false, zone_detection_enabled := true }
  else { use_regions := true, zone_detection_enabled := false }

/-- Embeds the mode repair in `initialize` (script.js:1352-1357): only when
neither flag is set does it default to plain-region mode; any other loaded
combination is left unchanged. -/
def initModes (c : ModeFlags) : ModeFlags :=
  if !c.zone_detection_enabled && !c.use_regions then
    { use_regions := true, zone_detection_enabled := false }
  else c

/-- Exactly one of the two detection modes is active. -/
def exactlyOneMode (c : ModeFlags) : Prop :=
  c.use_regions = !c.zone_detection_enabled

instance (c : ModeFlags) : Decidable (exactlyOneMode c) := by
  unfold exactlyOneMode; infer_instance

/-- Modelled from the spec: the Config and Ownership Coordinator of
`api/security-api.py` (absent from the sources) applies a partial mode
patch atomically; enabling one mode silently disables the other in the
same update, and a contradictory patch (both flags enabled at once) is
rejected, leaving the prior configuration intact (spec sections 4.5, 7). -/
def coordinatorModePatch (pu pz : Option Bool) (c : ModeFlags) : Option ModeFlags :=
  if pu = some true ∧ pz = some true then none
  else
    let u := if pz = some true then false else pu.getD c.use_regions
    let z := if pu = some true then false else pz.getD c.zone_detection_enabled
    some { use_regions := u, zone_detection_enabled := z }

/-! ## Region drawing (web/script.js) -/

/-- Embeds the `mouseup` handler of `setupRegionDrawing` (script.js:568-588):
the dragged corners are normalised with min/max, scaled back to main-stream
pixels and floored; the rectangle is stored only when both `|x2-x1| > 5`
and `|y2-y1| > 5`, otherwise the drag is discarded. -/
def regionFromDrag (startX startY endX endY scale : ℚ) : Option (ℤ × ℤ × ℤ × ℤ) :=
  let x1 := ⌊min startX endX / scale⌋
  let y1 := ⌊min startY endY / scale⌋
  let x2 := ⌊max startX endX / scale⌋
  let y2 := ⌊max startY endY / scale⌋
  if 5 < |x2 - x1| ∧ 5 < |y2 - y1| then some (x1, y1, x2, y2) else none

/-- Embeds the `mouseup` handler of `setupCornerZoneDrawing`
(script.js:1025-1051), whose rectangle computation and size guard are the
same as the detection/calibration-region handler; the accepted rectangle is
stored as the coordinates of the currently selected zone A/B/C. -/
def cornerZoneFromDrag (startX startY endX endY scale : ℚ) : Option (ℤ × ℤ × ℤ × ℤ) :=
  let x1 := ⌊min startX endX / scale⌋
  let y1 := ⌊min startY endY / scale⌋
  let x2 := ⌊max startX endX / scale⌋
  let y2 := ⌊max startY endY / scale⌋
  if 5 < |x2 - x1| ∧ 5 < |y2 - y1| then some (x1, y1, x2, y2) else none

/-! ## Stills gallery ordering (web/script.js) -/

/-- One entry of the still list returned by `GET /api/stills`:
a filename and its creation timestamp (epoch milliseconds). -/
structure Still where
  filename : String
  created : ℤ
deriving DecidableEq

/-- Embeds the comparator passed to `sort` in `displayStills`
(script.js:216-227): corner captures sort before all others, and entries
of the same kind sort by `created` descending. -/
def stillCompare (a b : Still) : ℤ :=
  let aIsCorner := a.filename.startsWith "corner_"
  let bIsCorner := b.filename.startsWith "corner_"
  if aIsCorner ≠ bIsCorner then (if aIsCorner then -1 else 1)
  else b.created - a.created

/-- The comparator as a Boolean "less or equal" relation: JavaScript's
`sort` places `a` before `b` whenever the comparator returns a
non-positive value. -/
def stillLE (a b : Still) : Bool :=
  stillCompare a b ≤ 0

/-- Embeds `displayStills`'s `[...stills].sort(...)` (script.js:216): the
input list is copied and sorted with the comparator; JavaScript's `sort`
is required to be stable, as is `List.mergeSort`. -/
def sortStills (stills : List Still) : List Still :=
  stills.mergeSort stillLE

/-! ## Zone timing controls (web/script.js) -/

/-- The two zone timing fields of the configuration record. -/
structure ZoneTimingConfig where
  zone_frame_interval : ℚ
  zone_cycle_duration : ℚ
deriving DecidableEq

/-- Embeds the `zoneFrameInterval` change handler (script.js:1300-1306).
`parseFloat` of a non-numeric input yields NaN, for which both range
comparisons are false; this is embedded as `none`.  The handler issues
`PUT /api/config` (the returned Boolean) and updates the stored value only
when `0.1 ≤ v ≤ 0.5`. -/
def zoneFrameIntervalChange (input : Option ℚ) (cfg : ZoneTimingConfig) :
    ZoneTimingConfig × Bool :=
  match input with
  | none => (cfg, false)
  | some v =>
    if 1/10 ≤ v ∧ v ≤ 1/2 then ({ cfg with zone_frame_interval := v }, true)
    else (cfg, false)

/-- Embeds the `zoneCycleDuration` change handler (script.js:1310-1316):
the update is issued only when `3 ≤ v ≤ 10`. -/
def zoneCycleDurationChange (input : Option ℚ) (cfg : ZoneTimingConfig) :
    ZoneTimingConfig × Bool :=
  match input with
  | none => (cfg, false)
  | some v =>
    if 3 ≤ v ∧ v ≤ 10 then ({ cfg with zone_cycle_duration := v }, true)
    else (cfg, false)

/-! ## Zone sequencer (modelled from the spec)

`api/security-api.py` is absent from the sources; the corner sequencer is
modelled from spec section 4.2 and the Detection Logic pseudocode of the
zone-detection document. -/

/-- The two control states of the corner sequencer. -/
inductive ZoneMachineState where
  | IDLE
  | CYCLE_OPEN
deriving DecidableEq

/-- Modelled from the spec: the live state of the corner sequencer
(spec section 3, ZoneCycleState), together with the machine state.
`pending_b_still` holds the identifier of the full-resolution still taken
when zone B was tagged. -/
structure ZoneSequencer where
  st : ZoneMachineState
  a_tagged : Bool
  b_tagged : Bool
  c_tagged : Bool
  cycle_start : Option ℚ
  pending_b_still : Option ℕ
deriving DecidableEq

/-- The externally visible result of one sequencer step. -/
inductive ZoneOutcome where
  | none
  | persistCorner (still : ℕ)
deriving DecidableEq

/-- The sequencer state at startup and after every cycle resolution:
IDLE with all tags false and both nullable fields null. -/
def initZoneState : ZoneSequencer :=
  { st := .IDLE, a_tagged := false, b_tagged := false, c_tagged := false,
    cycle_start := none, pending_b_still := none }

/-- Modelled from the spec: one evaluation of the zone sequencer
(spec section 4.2), executed once per analysis interval while zone mode is
active.  `motionA/B/C` report motion inside the respective zone rectangle,
`freshStill` is the full-resolution still requested if zone B is tagged in
this step.  In `IDLE`, motion in A opens a cycle and records
`cycle_start := now`.  While open, when `now - cycle_start` has reached the
cycle duration, the cycle resolves: the held zone-B still is persisted
exactly when `b_tagged` and not `c_tagged`, it is discarded when
`c_tagged`, nothing is persisted when only `a_tagged`, and the state resets
to `initZoneState`.  Otherwise B is tagged (holding the fresh still) after
A and C after B. -/
def zoneStep (duration : ℚ) (s : ZoneSequencer) (now : ℚ)
    (motionA motionB motionC : Bool) (freshStill : ℕ) :
    ZoneSequencer × ZoneOutcome :=
  match s.st with
  | .IDLE =>
    if motionA then
      ({ s with st := .CYCLE_OPEN, a_tagged := true, cycle_start := some now },
       .none)
    else (s, .none)
  | .CYCLE_OPEN =>
    let start := s.cycle_start.getD now
    if duration ≤ now - start then
      let outcome :=
        if s.b_tagged && !s.c_tagged then
          match s.pending_b_still with
          | some p => ZoneOutcome.persistCorner p
          | none => ZoneOutcome.none
        else ZoneOutcome.none
      (initZoneState, outcome)
    else
      let s1 :=
        if s.a_tagged && !s.b_tagged && motionB then
          { s with b_tagged := true, pending_b_still := some freshStill }
        else s
      let s2 :=
        if s1.b_tagged && !s1.c_tagged && motionC then
          { s1 with c_tagged := true }
        else s1
      (s2, .none)

/-- The sequencer states reachable from startup under arbitrary inputs. -/
inductive ZoneReachable (duration : ℚ) : ZoneSequencer → Prop
  | init : ZoneReachable duration initZoneState
  | step {s : ZoneSequencer} (now : ℚ) (mA mB mC : Bool) (fresh : ℕ) :
      ZoneReachable duration s →
      ZoneReachable duration (zoneStep duration s now mA mB mC fresh).1

/-- The sequencer's structural invariant: tags are monotone in sequence
order, a held still accompanies a B tag, an IDLE machine is fully reset,
and an open cycle has A tagged and a recorded start time. -/
def ZoneWF (s : ZoneSequencer) : Prop :=
  (s.b_tagged = true → s.a_tagged = true) ∧
  (s.c_tagged = true → s.b_tagged = true) ∧
  (s.b_tagged = true → s.pending_b_still ≠ none) ∧
  (s.st = .IDLE → s = initZoneState) ∧
  (s.st = .CYCLE_OPEN → s.a_tagged = true ∧ s.cycle_start ≠ none)

/-! ## Calibration engine (modelled from the spec) -/

/-- The five ordered camera profiles (spec section 3, CameraProfile). -/
inductive CameraProfile where
  | dayBright
  | day
  | duskBright
  | duskDark
  | night
deriving DecidableEq

/-- Modelled from the spec: profile selection of the Calibration Engine
(spec section 4.3 and the README's Automatic Camera Profiles table):
the first (highest) satisfied threshold wins, under `L ≥ threshold`;
below all four thresholds the profile is Night. -/
def selectProfile (dayBrightT dayT duskBrightT duskDarkT L : ℚ) : CameraProfile :=
  if dayBrightT ≤ L then .dayBright
  else if dayT ≤ L then .day
  else if duskBrightT ≤ L then .duskBright
  else if duskDarkT ≤ L then .duskDark
  else .night

/-- Position of a profile in the fixed bright-to-dark order. -/
def profileIdx : CameraProfile → ℕ
  | .dayBright => 0
  | .day => 1
  | .duskBright => 2
  | .duskDark => 3
  | .night => 4

/-- A profile is attained somewhere on the luminance range `[0, 255]`
for the given thresholds. -/
def profileAttainable (dayBrightT dayT duskBrightT duskDarkT : ℚ)
    (p : CameraProfile) : Prop :=
  ∃ L, 0 ≤ L ∧ L ≤ 255 ∧ selectProfile dayBrightT dayT duskBrightT duskDarkT L = p

/-! ## Capture scheduler cooldown (modelled from the spec) -/

/-- Burst parameters of the configuration record. -/
structure BurstParams where
  burst_count : ℕ
  burst_interval : ℚ
  cooldown_seconds : ℚ
deriving DecidableEq

/-- The scheduler state: the time of the last frame of the most recently
completed burst, if any burst has run. -/
structure SchedulerState where
  lastBurstEnd : Option ℚ
deriving DecidableEq

/-- The time of a burst's last frame: `burst_count` frames are taken at
`burst_interval` spacing starting at `start` (spec section 4.4). -/
def burstLastFrame (p : BurstParams) (start : ℚ) : ℚ :=
  start + (p.burst_count - 1 : ℕ) * p.burst_interval

/-- Modelled from the spec: arrival of one qualifying trigger at time `t`
at the Capture Scheduler (spec section 4.4).  A trigger arriving strictly
before `cooldown_seconds` have elapsed since the last burst's last frame
is dropped (no burst, state unchanged, nothing queued); one arriving at or
after the boundary — or when no burst has completed yet — starts a burst
at `t`, and the cooldown is then measured from that burst's last frame. -/
def triggerStep (p : BurstParams) (s : SchedulerState) (t : ℚ) :
    SchedulerState × Option ℚ :=
  match s.lastBurstEnd with
  | none => ({ lastBurstEnd := some (burstLastFrame p t) }, some t)
  | some e =>
    if t - e < p.cooldown_seconds then (s, none)
    else ({ lastBurstEnd := some (burstLastFrame p t) }, some t)

/-- Runs the scheduler over a sequence of trigger times, collecting the
start times of the bursts that are actually taken. -/
def runTriggers (p : BurstParams) (s : SchedulerState) : List ℚ → List ℚ
  | [] => []
  | t :: ts =>
    match triggerStep p s t with
    | (s1, Option.none) => runTriggers p s1 ts
    | (s1, some b) => b :: runTriggers p s1 ts

/-! ## Motion detector (modelled from the spec) -/

/-- A low-resolution analysis frame as a list of pixel intensities. -/
def MDFrame := List ℕ

/-- The detector's baseline: the previous processed frame, absent at the
start of a monitoring session. -/
structure DetectorState where
  prevFrame : Option MDFrame

/-- Absolute difference of two pixel intensities. -/
def pixelDiff (a b : ℕ) : ℕ := max a b - min a b

/-- Modelled from the spec: the changed-pixel count of the Motion Detector
(spec section 4.1): absolute per-pixel difference of the two
intensity frames, binarized at `sensitivity`, masked by the compiled
region mask, and the surviving pixels summed. -/
def diffCount (sensitivity : ℕ) (mask : List Bool) (prev curr : MDFrame) : ℕ :=
  (((List.zip prev curr)).zip mask).countP
    fun x => x.2 && decide (sensitivity < pixelDiff x.1.1 x.1.2)

/-- Modelled from the spec: one Motion Detector step (spec section 4.1).
`blur` is the fixed-radius de-noising blur applied to both frames before
differencing.  The first frame of a session has no predecessor: motion is
defined false (count 0) and the frame only becomes the new baseline.
Every processed frame becomes the baseline for the next comparison, and
`motion = count > motion_threshold`. -/
def detectMotion (threshold sensitivity : ℕ) (mask : List Bool)
    (blur : MDFrame → MDFrame) (s : DetectorState) (frame : MDFrame) :
    DetectorState × ℕ × Bool :=
  match s.prevFrame with
  | none => ({ prevFrame := some frame }, 0, false)
  | some prev =>
    let count := diffCount sensitivity mask (blur prev) (blur frame)
    ({ prevFrame := some frame }, count, decide (threshold < count))

/-! ## Capture file naming (modelled from the spec) -/

/-- A capture timestamp broken into calendar fields. -/
structure CaptureTime where
  year : ℕ
  month : ℕ
  day : ℕ
  hour : ℕ
  minute : ℕ
  second : ℕ
deriving DecidableEq

/-- The decimal digit character for `n % 10`. -/
def digitChar (n : ℕ) : Char := Char.ofNat (48 + n % 10)

/-- Two-digit zero-padded decimal rendering (strftime `%m`, `%d`, `%H`,
`%M`, `%S`). -/
def pad2 (n : ℕ) : String := String.mk [digitChar (n / 10), digitChar n]

/-- Four-digit zero-padded decimal rendering (strftime `%Y`). -/
def pad4 (n : ℕ) : String :=
  String.mk [digitChar (n / 1000), digitChar (n / 100), digitChar (n / 10), digitChar n]

/-- The `YYYYMMDD` date stamp of the naming scheme. -/
def dateStamp (t : CaptureTime) : String := pad4 t.year ++ pad2 t.month ++ pad2 t.day

/-- The `HHMMSS` time stamp of the naming scheme. -/
def timeStamp (t : CaptureTime) : String := pad2 t.hour ++ pad2 t.minute ++ pad2 t.second

/-- Modelled from the spec: the fixed two-letter profile abbreviations
(spec section 6).  The spec and the zone-detection document fix Day→`Da`
and Night→`Ni`; the README's filename example fixes Dusk Dark→`KD`; the
remaining two codes are chosen as fixed two-letter abbreviations in the
same style. -/
def profileCode : CameraProfile → String
  | .dayBright => "DB"
  | .day => "Da"
  | .duskBright => "KB"
  | .duskDark => "KD"
  | .night => "Ni"

/-- Rendering of the measured luminance with exactly one decimal digit
(Python `f"{L:.1f}"`), from the luminance expressed in tenths. -/
def lumRender (tenths : ℕ) : String :=
  toString (tenths / 10) ++ "." ++ toString (tenths % 10)

/-- Modelled from the spec: the corner-capture naming scheme
`corner_<YYYYMMDD>_<HHMMSS>_<ProfileCode>_L<Luminance>.jpg`
(spec section 6; zone-detection document, Saved Files). -/
def cornerFilename (t : CaptureTime) (p : CameraProfile) (lumTenths : ℕ) : String :=
  "corner_" ++ dateStamp t ++ "_" ++ timeStamp t ++ "_" ++ profileCode p ++
    "_L" ++ lumRender lumTenths ++ ".jpg"

/-- Modelled from the spec: the plain-motion naming scheme
`motion_<YYYYMMDD>_<HHMMSS>_burst<N>_<ProfileCode>_L<Luminance>.jpg`
(spec section 6). -/
def motionFilename (t : CaptureTime) (burstN : ℕ) (p : CameraProfile)
    (lumTenths : ℕ) : String :=
  "motion_" ++ dateStamp t ++ "_" ++ timeStamp t ++ "_burst" ++ toString burstN ++
    "_" ++ profileCode p ++ "_L" ++ lumRender lumTenths ++ ".jpg"

/-! ## Theorems -/

/-- Claim C1: after any mode-toggle mutation issued by the configuration
interface and after initialization, exactly one of `use_regions` and
`zone_detection_enabled` is true — never both, never neither: enabling one
mode clears the other in the same atomic update.  The initialization
repair receives a configuration maintained by the Coordinator, which never
stores both flags true (last conjunct). -/
theorem mode_flags_mutual_exclusion :
    (∀ (checked : Bool) (c : ModeFlags), exactlyOneMode (useRegionsChange checked c)) ∧
    (∀ (checked : Bool) (c : ModeFlags), exactlyOneMode (zoneEnabledChange checked c)) ∧
    (∀ c : ModeFlags,
      ¬(c.use_regions = true ∧ c.zone_detection_enabled = true) →
      exactlyOneMode (initModes c)) ∧
    (∀ (pu pz : Option Bool) (c c1 : ModeFlags),
      ¬(c.use_regions = true ∧ c.zone_detection_enabled = true) →
      coordinatorModePatch pu pz c = some c1 →
      ¬(c1.use_regions = true ∧ c1.zone_detection_enabled = true)) := by
  exact ⟨by decide, by decide, by decide, by decide⟩

/-- Witness for C1 at concrete inputs: enabling regions from a fresh
configuration, enabling zone mode while regions are active, and
initializing from the default configuration (both flags false, not both
true) all leave exactly one mode active. -/
theorem mode_flags_mutual_exclusion_witness :
    exactlyOneMode (useRegionsChange true ⟨false, false⟩) ∧
    exactlyOneMode (zoneEnabledChange true ⟨true, false⟩) ∧
    (¬((ModeFlags.mk false false).use_regions = true ∧
        (ModeFlags.mk false false).zone_detection_enabled = true) ∧
      exactlyOneMode (initModes ⟨false, false⟩)) :=
  ⟨mode_flags_mutual_exclusion.1 true ⟨false, false⟩,
   mode_flags_mutual_exclusion.2.1 true ⟨true, false⟩,
   by decide,
   mode_flags_mutual_exclusion.2.2.1 ⟨false, false⟩ (by decide)⟩

/-- Claim C5: every region rectangle accepted by the drawing handlers —
detection/calibration regions and corner zones alike — satisfies
`x1 < x2` and `y1 < y2`; in fact both sides exceed 5 pixels, rectangles
of width or height 5 or less being rejected. -/
theorem drawn_rectangles_nondegenerate (startX startY endX endY scale : ℚ)
    (hscale : 0 < scale) (x1 y1 x2 y2 : ℤ) :
    (regionFromDrag startX startY endX endY scale = some (x1, y1, x2, y2) →
      x1 < x2 ∧ y1 < y2 ∧ 5 < x2 - x1 ∧ 5 < y2 - y1) ∧
    (cornerZoneFromDrag startX startY endX endY scale = some (x1, y1, x2, y2) →
      x1 < x2 ∧ y1 < y2 ∧ 5 < x2 - x1 ∧ 5 < y2 - y1) := by
  have key : regionFromDrag startX startY endX endY scale = some (x1, y1, x2, y2) →
      x1 < x2 ∧ y1 < y2 ∧ 5 < x2 - x1 ∧ 5 < y2 - y1 := by
    intro h
    have hx : ⌊min startX endX / scale⌋ ≤ ⌊max startX endX / scale⌋ :=
      Int.floor_le_floor ((div_le_div_iff_of_pos_right hscale).mpr min_le_max)
    have hy : ⌊min startY endY / scale⌋ ≤ ⌊max startY endY / scale⌋ :=
      Int.floor_le_floor ((div_le_div_iff_of_pos_right hscale).mpr min_le_max)
    simp only [regionFromDrag] at h
    split_ifs at h with hgt
    · simp only [Option.some.injEq, Prod.mk.injEq] at h
      obtain ⟨e1, e2, e3, e4⟩ := h
      subst e1; subst e2; subst e3; subst e4
      rw [abs_of_nonneg (sub_nonneg.mpr hx), abs_of_nonneg (sub_nonneg.mpr hy)] at hgt
      omega
  exact ⟨key, fun h => key h⟩

/-- Witness for C5: a concrete drag from (0,0) to (10,20) at scale 1 is
accepted by both handlers and yields a properly ordered rectangle. -/
theorem drawn_rectangles_nondegenerate_witness :
    (0:ℚ) < 1 ∧ ((0:ℤ) < 10 ∧ (0:ℤ) < 20 ∧ (5:ℤ) < 10 - 0 ∧ (5:ℤ) < 20 - 0) := by
  refine ⟨by norm_num, ?_⟩
  exact (drawn_rectangles_nondegenerate 0 0 10 20 1 (by norm_num) 0 0 10 20).1
    (by norm_num [regionFromDrag])

/-- Claim C10: the zone timing change handlers validate before mutating:
a `PUT /api/config` is issued exactly for parsed values in range
(`[0.1, 0.5]` for the frame interval, `[3, 10]` for the cycle duration);
out-of-range and non-numeric (NaN) inputs issue no API call and leave the
stored configuration unchanged. -/
theorem zone_timing_controls_validate :
    (∀ (v : ℚ) (cfg : ZoneTimingConfig), 1/10 ≤ v → v ≤ 1/2 →
      zoneFrameIntervalChange (some v) cfg =
        ({ cfg with zone_frame_interval := v }, true)) ∧
    (∀ (v : ℚ) (cfg : ZoneTimingConfig), ¬(1/10 ≤ v ∧ v ≤ 1/2) →
      zoneFrameIntervalChange (some v) cfg = (cfg, false)) ∧
    (∀ cfg : ZoneTimingConfig, zoneFrameIntervalChange none cfg = (cfg, false)) ∧
    (∀ (v : ℚ) (cfg : ZoneTimingConfig), 3 ≤ v → v ≤ 10 →
      zoneCycleDurationChange (some v) cfg =
        ({ cfg with zone_cycle_duration := v }, true)) ∧
    (∀ (v : ℚ) (cfg : ZoneTimingConfig), ¬(3 ≤ v ∧ v ≤ 10) →
      zoneCycleDurationChange (some v) cfg = (cfg, false)) ∧
    (∀ cfg : ZoneTimingConfig, zoneCycleDurationChange none cfg = (cfg, false)) := by
  refine ⟨?_, ?_, fun _ => rfl, ?_, ?_, fun _ => rfl⟩
  · intro v cfg h1 h2
    simp only [zoneFrameIntervalChange]
    rw [if_pos ⟨h1, h2⟩]
  · intro v cfg h
    simp only [zoneFrameIntervalChange]
    rw [if_neg h]
  · intro v cfg h1 h2
    simp only [zoneCycleDurationChange]
    rw [if_pos ⟨h1, h2⟩]
  · intro v cfg h
    simp only [zoneCycleDurationChange]
    rw [if_neg h]

/-- Witness for C10 at concrete inputs: 0.25 is accepted for the frame
interval, 2 is rejected, and 7 is accepted for the cycle duration. -/
theorem zone_timing_controls_validate_witness :
    ((1:ℚ)/10 ≤ 1/4 ∧ (1:ℚ)/4 ≤ 1/2 ∧
      zoneFrameIntervalChange (some (1/4)) ⟨15/100, 5⟩ = (⟨1/4, 5⟩, true)) ∧
    (¬((1:ℚ)/10 ≤ 2 ∧ (2:ℚ) ≤ 1/2) ∧
      zoneFrameIntervalChange (some 2) ⟨15/100, 5⟩ = (⟨15/100, 5⟩, false)) ∧
    ((3:ℚ) ≤ 7 ∧ (7:ℚ) ≤ 10 ∧
      zoneCycleDurationChange (some 7) ⟨15/100, 5⟩ = (⟨15/100, 7⟩, true)) := by
  refine ⟨⟨by norm_num, by norm_num, ?_⟩, ⟨by norm_num, ?_⟩,
    ⟨by norm_num, by norm_num, ?_⟩⟩
  · exact zone_timing_controls_validate.1 (1/4) ⟨15/100, 5⟩ (by norm_num) (by norm_num)
  · exact zone_timing_controls_validate.2.1 2 ⟨15/100, 5⟩ (by norm_num)
  · exact zone_timing_controls_validate.2.2.2.1 7 ⟨15/100, 5⟩ (by norm_num) (by norm_num)

/-- The gallery comparator is transitive. -/
theorem stillLE_trans : ∀ a b c : Still, stillLE a b → stillLE b c → stillLE a c := by
  intro a b c h1 h2
  simp only [stillLE, stillCompare, decide_eq_true_eq] at *
  cases ha : a.filename.startsWith "corner_" <;>
    cases hb : b.filename.startsWith "corner_" <;>
    cases hc : c.filename.startsWith "corner_" <;>
    simp_all <;> omega

/-- The gallery comparator is total. -/
theorem stillLE_total : ∀ a b : Still, stillLE a b || stillLE b a := by
  intro a b
  simp only [stillLE, Bool.or_eq_true, decide_eq_true_eq, stillCompare]
  cases ha : a.filename.startsWith "corner_" <;>
    cases hb : b.filename.startsWith "corner_" <;>
    simp_all <;> omega

/-- A comparator-ordered pair is ordered as the gallery requires: no
non-corner still may precede a corner still, and within one kind the
`created` timestamps are non-increasing. -/
theorem stillLE_then_order (a b : Still) (h : stillLE a b) :
    (b.filename.startsWith "corner_" = true → a.filename.startsWith "corner_" = true) ∧
    (a.filename.startsWith "corner_" = b.filename.startsWith "corner_" →
      b.created ≤ a.created) := by
  simp only [stillLE, stillCompare, decide_eq_true_eq] at h
  cases ha : a.filename.startsWith "corner_" <;>
    cases hb : b.filename.startsWith "corner_" <;>
    simp_all

/-- Claim C9: the gallery ordering produced by `displayStills` is a
permutation of the input in which every `corner_` still precedes every
other still, and within each of the two groups stills are ordered by
their `created` timestamp descending; the input list itself is copied,
not mutated. -/
theorem displayStills_gallery_order (stills : List Still) :
    (sortStills stills).Perm stills ∧
    (sortStills stills).Pairwise (fun a b =>
      (b.filename.startsWith "corner_" = true →
        a.filename.startsWith "corner_" = true) ∧
      (a.filename.startsWith "corner_" = b.filename.startsWith "corner_" →
        b.created ≤ a.created)) := by
  constructor
  · exact List.mergeSort_perm stills stillLE
  · exact (List.sorted_mergeSort stillLE_trans stillLE_total stills).imp
      (fun hab => stillLE_then_order _ _ hab)

/-- The sequencer invariant holds at startup. -/
theorem zoneWF_init : ZoneWF initZoneState := by
  unfold ZoneWF initZoneState
  exact ⟨by simp, by simp, by simp, fun _ => rfl, by simp⟩

/-- One sequencer step preserves the structural invariant. -/
theorem zoneWF_step (duration now : ℚ) (mA mB mC : Bool) (fresh : ℕ)
    (s : ZoneSequencer) (h : ZoneWF s) :
    ZoneWF (zoneStep duration s now mA mB mC fresh).1 := by
  obtain ⟨st, a, b, c, cs, pend⟩ := s
  obtain ⟨h1, h2, h3, h4, h5⟩ := h
  cases st with
  | IDLE =>
    have hinit := h4 rfl
    rw [show initZoneState = ⟨.IDLE, false, false, false, none, none⟩ from rfl] at hinit
    injection hinit with _ ha hb hc hcs hpend
    subst ha; subst hb; subst hc; subst hcs; subst hpend
    cases mA with
    | true =>
      have hred : (zoneStep duration ⟨.IDLE, false, false, false, none, none⟩
          now true mB mC fresh).1 =
          ⟨.CYCLE_OPEN, true, false, false, some now, none⟩ := rfl
      rw [hred]
      simp [ZoneWF]
    | false =>
      have hred : (zoneStep duration ⟨.IDLE, false, false, false, none, none⟩
          now false mB mC fresh).1 = ⟨.IDLE, false, false, false, none, none⟩ := rfl
      rw [hred]
      exact zoneWF_init
  | CYCLE_OPEN =>
    obtain ⟨ha, hcs⟩ := h5 rfl
    simp only at ha h1 h2 h3 hcs
    subst ha
    obtain ⟨t, rfl⟩ := Option.ne_none_iff_exists'.mp hcs
    by_cases hres : duration ≤ now - t
    · have hred : (zoneStep duration ⟨.CYCLE_OPEN, true, b, c, some t, pend⟩
          now mA mB mC fresh).1 = initZoneState := by
        unfold zoneStep
        simp [hres]
      rw [hred]
      exact zoneWF_init
    · cases b <;> cases c <;> cases mB <;> cases mC <;>
        simp_all [zoneStep, ZoneWF, if_neg hres]

/-- Every reachable sequencer state satisfies the structural invariant. -/
theorem zoneWF_reachable {duration : ℚ} {s : ZoneSequencer}
    (h : ZoneReachable duration s) : ZoneWF s := by
  induction h with
  | init => exact zoneWF_init
  | step now mA mB mC fresh _ ih => exact zoneWF_step duration now mA mB mC fresh _ ih

/-- Claim C3: in every reachable state of the zone sequencer the tag
flags are monotone in sequence order — an untagged A forces B and C
untagged (and an untagged B forces C untagged) — and the machine is in
exactly one of the two states IDLE and CYCLE_OPEN. -/
theorem zone_tags_monotone (duration : ℚ) (s : ZoneSequencer)
    (h : ZoneReachable duration s) :
    (s.a_tagged = false → s.b_tagged = false ∧ s.c_tagged = false) ∧
    (s.b_tagged = false → s.c_tagged = false) ∧
    ((s.st = .IDLE ∨ s.st = .CYCLE_OPEN) ∧
      ¬(s.st = .IDLE ∧ s.st = .CYCLE_OPEN)) := by
  obtain ⟨h1, h2, _h3, _h4, _h5⟩ := zoneWF_reachable h
  refine ⟨?_, ?_, ?_, ?_⟩
  · intro ha
    constructor
    · cases hb : s.b_tagged
      · rfl
      · rw [h1 hb] at ha; cases ha
    · cases hc : s.c_tagged
      · rfl
      · rw [h1 (h2 hc)] at ha; cases ha
  · intro hb
    cases hc : s.c_tagged
    · rfl
    · rw [h2 hc] at hb; cases hb
  · cases hst : s.st
    · exact Or.inl rfl
    · exact Or.inr rfl
  · rintro ⟨hI, hC⟩
    rw [hI] at hC
    cases hC

/-- Witness for C3 at the concrete reachable state after startup. -/
theorem zone_tags_monotone_witness :
    (initZoneState.a_tagged = false →
      initZoneState.b_tagged = false ∧ initZoneState.c_tagged = false) ∧
    (initZoneState.b_tagged = false → initZoneState.c_tagged = false) ∧
    ((initZoneState.st = .IDLE ∨ initZoneState.st = .CYCLE_OPEN) ∧
      ¬(initZoneState.st = .IDLE ∧ initZoneState.st = .CYCLE_OPEN)) :=
  zone_tags_monotone 5 initZoneState ZoneReachable.init

/-- Claim C2: when an open cycle's elapsed time reaches the cycle
duration, the step resolves the cycle: the held zone-B still is persisted
exactly when B is tagged and C is not, a tagged C discards it, a cycle
that only tagged A persists nothing, and in every case the state resets
to IDLE with all tags false, `cycle_start` null and `pending_b_still`
null. -/
theorem zone_cycle_resolution (duration now t : ℚ) (mA mB mC : Bool) (fresh : ℕ)
    (s : ZoneSequencer) (hopen : s.st = .CYCLE_OPEN)
    (hstart : s.cycle_start = some t) (helapsed : duration ≤ now - t)
    (hheld : s.b_tagged = true → s.pending_b_still ≠ none) :
    (zoneStep duration s now mA mB mC fresh).1 = initZoneState ∧
    (s.b_tagged = true → s.c_tagged = false →
      ∃ p, s.pending_b_still = some p ∧
        (zoneStep duration s now mA mB mC fresh).2 = .persistCorner p) ∧
    (s.c_tagged = true → (zoneStep duration s now mA mB mC fresh).2 = .none) ∧
    (s.b_tagged = false → (zoneStep duration s now mA mB mC fresh).2 = .none) := by
  have hstep : zoneStep duration s now mA mB mC fresh =
      (initZoneState,
        if s.b_tagged && !s.c_tagged then
          match s.pending_b_still with
          | some p => ZoneOutcome.persistCorner p
          | none => ZoneOutcome.none
        else ZoneOutcome.none) := by
    unfold zoneStep
    rw [hopen, hstart]
    simp only [Option.getD_some]
    rw [if_pos helapsed]
  rw [hstep]
  refine ⟨rfl, ?_, ?_, ?_⟩
  · intro hb hc
    cases hp : s.pending_b_still with
    | none => exact absurd hp (hheld hb)
    | some p => exact ⟨p, rfl, by simp [hb, hc, hp]⟩
  · intro hc
    cases hb : s.b_tagged <;> simp [hb, hc]
  · intro hb
    simp [hb]

/-- Witness for C2: a concrete open cycle with A and B tagged, C
untagged, started at t=0 with duration 5 and resolved at now=5: the held
still (number 7) is persisted and the state resets. -/
theorem zone_cycle_resolution_witness :
    ((ZoneSequencer.mk .CYCLE_OPEN true true false (some 0) (some 7)).st =
        .CYCLE_OPEN ∧ (5:ℚ) ≤ 5 - 0) ∧
    (zoneStep 5 ⟨.CYCLE_OPEN, true, true, false, some 0, some 7⟩ 5
        false false false 9).1 = initZoneState ∧
    (∃ p, (ZoneSequencer.mk .CYCLE_OPEN true true false
        (some 0) (some 7)).pending_b_still = some p ∧
      (zoneStep 5 ⟨.CYCLE_OPEN, true, true, false, some 0, some 7⟩ 5
          false false false 9).2 = .persistCorner p) := by
  have h := zone_cycle_resolution 5 5 0 false false false 9
    ⟨.CYCLE_OPEN, true, true, false, some 0, some 7⟩ rfl rfl (by norm_num) (by simp)
  exact ⟨⟨rfl, by norm_num⟩, h.1, h.2.1 rfl rfl⟩

/-- Claim C4 (amended): profile selection returns the first profile whose
threshold is satisfied under `L ≥ threshold`, a value exactly at a
threshold selects the higher-named profile, and selection is antitone in
`L`; when the strictly ordered thresholds additionally lie inside the
luminance range (`day_bright ≤ 255` and `dusk_dark > 0`), a sweep of `L`
from 255 down to 0 attains all five profiles, in fixed order with none
skipped or repeated. -/
theorem profile_selection_ordered (t1 t2 t3 t4 : ℚ)
    (h12 : t2 < t1) (h23 : t3 < t2) (h34 : t4 < t3) :
    (∀ L, t1 ≤ L → selectProfile t1 t2 t3 t4 L = .dayBright) ∧
    (∀ L, t2 ≤ L → L < t1 → selectProfile t1 t2 t3 t4 L = .day) ∧
    (∀ L, t3 ≤ L → L < t2 → selectProfile t1 t2 t3 t4 L = .duskBright) ∧
    (∀ L, t4 ≤ L → L < t3 → selectProfile t1 t2 t3 t4 L = .duskDark) ∧
    (∀ L, L < t4 → selectProfile t1 t2 t3 t4 L = .night) ∧
    (selectProfile t1 t2 t3 t4 t1 = .dayBright ∧
      selectProfile t1 t2 t3 t4 t2 = .day ∧
      selectProfile t1 t2 t3 t4 t3 = .duskBright ∧
      selectProfile t1 t2 t3 t4 t4 = .duskDark) ∧
    (∀ L L', L' ≤ L →
      profileIdx (selectProfile t1 t2 t3 t4 L) ≤
        profileIdx (selectProfile t1 t2 t3 t4 L')) ∧
    (t1 ≤ 255 → 0 < t4 → ∀ p, profileAttainable t1 t2 t3 t4 p) := by
  have c1 : ∀ L, t1 ≤ L → selectProfile t1 t2 t3 t4 L = .dayBright := by
    intro L h
    unfold selectProfile
    rw [if_pos h]
  have c2 : ∀ L, t2 ≤ L → L < t1 → selectProfile t1 t2 t3 t4 L = .day := by
    intro L h h'
    unfold selectProfile
    rw [if_neg (not_le.mpr h'), if_pos h]
  have c3 : ∀ L, t3 ≤ L → L < t2 → selectProfile t1 t2 t3 t4 L = .duskBright := by
    intro L h h'
    unfold selectProfile
    rw [if_neg (not_le.mpr (by linarith)), if_neg (not_le.mpr h'), if_pos h]
  have c4 : ∀ L, t4 ≤ L → L < t3 → selectProfile t1 t2 t3 t4 L = .duskDark := by
    intro L h h'
    unfold selectProfile
    rw [if_neg (not_le.mpr (by linarith)), if_neg (not_le.mpr (by linarith)),
      if_neg (not_le.mpr h'), if_pos h]
  have c5 : ∀ L, L < t4 → selectProfile t1 t2 t3 t4 L = .night := by
    intro L h
    unfold selectProfile
    rw [if_neg (not_le.mpr (by linarith)), if_neg (not_le.mpr (by linarith)),
      if_neg (not_le.mpr (by linarith)), if_neg (not_le.mpr h)]
  refine ⟨c1, c2, c3, c4, c5,
    ⟨c1 t1 le_rfl, c2 t2 le_rfl h12, c3 t3 le_rfl h23, c4 t4 le_rfl h34⟩, ?_, ?_⟩
  · intro L L' hLL
    unfold selectProfile
    split_ifs <;> simp only [profileIdx] <;> first | omega | linarith
  · intro h255 h4pos p
    cases p with
    | dayBright => exact ⟨255, by norm_num, le_refl 255, c1 255 (by linarith)⟩
    | day => exact ⟨t2, by linarith, by linarith, c2 t2 le_rfl h12⟩
    | duskBright => exact ⟨t3, by linarith, by linarith, c3 t3 le_rfl h23⟩
    | duskDark => exact ⟨t4, by linarith, by linarith, c4 t4 le_rfl h34⟩
    | night => exact ⟨0, le_rfl, by norm_num, c5 0 h4pos⟩

/-- Counterexample for C4 as stated: for the strictly ordered threshold
quadruple (300, 200, 100, 50) — whose top threshold lies above the
luminance range — no luminance in [0, 255] ever selects Day Bright, so a
sweep of L from 255 down to 0 skips that profile. -/
theorem profile_selection_sweep_counterexample :
    (200:ℚ) < 300 ∧ (100:ℚ) < 200 ∧ (50:ℚ) < 100 ∧
    ¬ profileAttainable 300 200 100 50 .dayBright := by
  refine ⟨by norm_num, by norm_num, by norm_num, ?_⟩
  rintro ⟨L, h0, h255, hsel⟩
  unfold selectProfile at hsel
  split_ifs at hsel
  linarith

/-- Witness for C4 at the default thresholds (160, 120, 80, 40): 160
selects Day Bright, the boundary value 120 selects Day, and every one of
the five profiles is attained on [0, 255]. -/
theorem profile_selection_ordered_witness :
    ((120:ℚ) < 160 ∧ (80:ℚ) < 120 ∧ (40:ℚ) < 80) ∧
    selectProfile 160 120 80 40 160 = .dayBright ∧
    selectProfile 160 120 80 40 120 = .day ∧
    ((160:ℚ) ≤ 255 ∧ (0:ℚ) < 40) ∧
    (∀ p, profileAttainable 160 120 80 40 p) := by
  have h := profile_selection_ordered 160 120 80 40
    (by norm_num) (by norm_num) (by norm_num)
  refine ⟨⟨by norm_num, by norm_num, by norm_num⟩, ?_, ?_,
    ⟨by norm_num, by norm_num⟩, ?_⟩
  · exact h.2.2.2.2.2.1.1
  · exact h.2.2.2.2.2.1.2.1
  · exact h.2.2.2.2.2.2.2 (by norm_num) (by norm_num)

/-- Bursts emitted by the scheduler respect the cooldown: over any
trigger trace, consecutive burst starts are spaced by at least a full
burst plus the cooldown, and the first emitted burst respects the
cooldown carried in the incoming state. -/
theorem runTriggers_spacing (p : BurstParams) :
    ∀ (ts : List ℚ) (s : SchedulerState),
      List.Chain' (fun b1 b2 => burstLastFrame p b1 + p.cooldown_seconds ≤ b2)
        (runTriggers p s ts) ∧
      (∀ e b, s.lastBurstEnd = some e → (runTriggers p s ts).head? = some b →
        e + p.cooldown_seconds ≤ b) := by
  intro ts
  induction ts with
  | nil =>
    intro s
    exact ⟨List.chain'_nil, fun e b _ hb => by cases hb⟩
  | cons t ts ih =>
    intro s
    cases hs : s.lastBurstEnd with
    | none =>
      have hred : runTriggers p s (t :: ts) =
          t :: runTriggers p { lastBurstEnd := some (burstLastFrame p t) } ts := by
        simp only [runTriggers, triggerStep, hs]
      rw [hred]
      constructor
      · rw [List.chain'_cons']
        exact ⟨fun b hb => (ih _).2 (burstLastFrame p t) b rfl hb, (ih _).1⟩
      · intro e b he _
        cases he
    | some e0 =>
      by_cases hcd : t - e0 < p.cooldown_seconds
      · have hred : runTriggers p s (t :: ts) = runTriggers p s ts := by
          simp only [runTriggers, triggerStep, hs]
          rw [if_pos hcd]
        rw [hred]
        exact ⟨(ih s).1, fun e b he hb => (ih s).2 e b (hs.trans he) hb⟩
      · have hred : runTriggers p s (t :: ts) =
            t :: runTriggers p { lastBurstEnd := some (burstLastFrame p t) } ts := by
          simp only [runTriggers, triggerStep, hs]
          rw [if_neg hcd]
        rw [hred]
        constructor
        · rw [List.chain'_cons']
          exact ⟨fun b hb => (ih _).2 (burstLastFrame p t) b rfl hb, (ih _).1⟩
        · intro e b he hb
          injection he with he
          subst he
          injection hb with hb
          subst hb
          linarith [not_lt.mp hcd]

/-- Claim C6: for every completed burst, no new burst starts during the
cooldown interval measured from the burst's last frame: a qualifying
trigger arriving strictly before the boundary is dropped — no burst, the
state unchanged, nothing queued — while a trigger arriving exactly at or
after the boundary starts a burst; over any trigger trace the burst
starts are therefore spaced by at least one full burst plus the
cooldown. -/
theorem cooldown_enforced (p : BurstParams) :
    (∀ (s : SchedulerState) (e t : ℚ), s.lastBurstEnd = some e →
      t - e < p.cooldown_seconds → triggerStep p s t = (s, none)) ∧
    (∀ (s : SchedulerState) (e t : ℚ), s.lastBurstEnd = some e →
      p.cooldown_seconds ≤ t - e →
      triggerStep p s t =
        ({ lastBurstEnd := some (burstLastFrame p t) }, some t)) ∧
    (∀ (ts : List ℚ) (s : SchedulerState),
      List.Chain' (fun b1 b2 => burstLastFrame p b1 + p.cooldown_seconds ≤ b2)
        (runTriggers p s ts)) := by
  refine ⟨?_, ?_, fun ts s => (runTriggers_spacing p ts s).1⟩
  · intro s e t he hlt
    simp only [triggerStep, he]
    rw [if_pos hlt]
  · intro s e t he hge
    simp only [triggerStep, he]
    rw [if_neg (not_lt.mpr hge)]

/-- Witness for C6 with burst parameters (count 4, interval 0.5,
cooldown 3) and a burst whose last frame was at time 1.5: the trigger at
t=2 — strictly inside the cooldown — is dropped with the state unchanged,
while the trigger at t=4.5, exactly at the boundary, starts a burst. -/
theorem cooldown_enforced_witness :
    ((SchedulerState.mk (some (3/2))).lastBurstEnd = some (3/2) ∧
      (2:ℚ) - 3/2 < 3 ∧
      triggerStep ⟨4, 1/2, 3⟩ ⟨some (3/2)⟩ 2 = (⟨some (3/2)⟩, none)) ∧
    ((3:ℚ) ≤ 9/2 - 3/2 ∧
      triggerStep ⟨4, 1/2, 3⟩ ⟨some (3/2)⟩ (9/2) =
        (⟨some (burstLastFrame ⟨4, 1/2, 3⟩ (9/2))⟩, some (9/2))) := by
  have h := cooldown_enforced ⟨4, 1/2, 3⟩
  exact ⟨⟨rfl, by norm_num, h.1 ⟨some (3/2)⟩ (3/2) 2 rfl (by norm_num)⟩,
    ⟨by norm_num, h.2.1 ⟨some (3/2)⟩ (3/2) (9/2) rfl (by norm_num)⟩⟩

/-- Claim C7: the first frame of a monitoring session yields
`motion = false` (count 0, which is below any threshold) and is only
stored as the baseline; thereafter every processed frame, whatever the
mask or blur, becomes the baseline for the next comparison, the returned
count is a non-negative integer, and `motion = (count > motion_threshold)`. -/
theorem motion_detector_first_frame (threshold sensitivity : ℕ)
    (mask : List Bool) (blur : MDFrame → MDFrame) (frame : MDFrame) :
    (detectMotion threshold sensitivity mask blur ⟨none⟩ frame =
        (⟨some frame⟩, 0, false) ∧
      (false : Bool) = decide (threshold < 0)) ∧
    (∀ prev : MDFrame,
      (detectMotion threshold sensitivity mask blur ⟨some prev⟩ frame).1 =
        ⟨some frame⟩ ∧
      0 ≤ (detectMotion threshold sensitivity mask blur ⟨some prev⟩ frame).2.1 ∧
      (detectMotion threshold sensitivity mask blur ⟨some prev⟩ frame).2.2 =
        decide (threshold <
          (detectMotion threshold sensitivity mask blur ⟨some prev⟩ frame).2.1)) := by
  refine ⟨⟨rfl, by simp⟩, fun prev => ⟨rfl, Nat.zero_le _, rfl⟩⟩

/-- Decimal rendering of a single decimal digit has length one. -/
theorem repr_length_of_lt_ten (n : ℕ) (h : n < 10) : (toString n).length = 1 := by
  interval_cases n <;> rfl

/-- Claim C8: corner captures are named exactly
`corner_<YYYYMMDD>_<HHMMSS>_<ProfileCode>_L<Luminance>.jpg` and plain
motion captures
`motion_<YYYYMMDD>_<HHMMSS>_burst<N>_<ProfileCode>_L<Luminance>.jpg`,
where the date and time stamps have the fixed widths 8 and 6, the
profile code is the fixed two-letter abbreviation of the active profile,
and the luminance is rendered with exactly one decimal digit. -/
theorem capture_filename_scheme (t : CaptureTime) (p : CameraProfile)
    (burstN lumTenths : ℕ) :
    cornerFilename t p lumTenths =
      "corner_" ++ dateStamp t ++ "_" ++ timeStamp t ++ "_" ++ profileCode p ++
        "_L" ++ toString (lumTenths / 10) ++ "." ++ toString (lumTenths % 10) ++
        ".jpg" ∧
    motionFilename t burstN p lumTenths =
      "motion_" ++ dateStamp t ++ "_" ++ timeStamp t ++ "_burst" ++
        toString burstN ++ "_" ++ profileCode p ++ "_L" ++
        toString (lumTenths / 10) ++ "." ++ toString (lumTenths % 10) ++
        ".jpg" ∧
    (dateStamp t).length = 8 ∧ (timeStamp t).length = 6 ∧
    (profileCode p).length = 2 ∧ (toString (lumTenths % 10)).length = 1 := by
  refine ⟨?_, ?_, ?_, ?_, ?_, ?_⟩
  · simp only [cornerFilename, lumRender, String.append_assoc]
  · simp only [motionFilename, lumRender, String.append_assoc]
  · simp [dateStamp, pad4, pad2]
  · simp [timeStamp, pad2]
  · cases p <;> rfl
  · exact repr_length_of_lt_ten _ (Nat.mod_lt _ (by norm_num))

end SecurityCam
